import Mathlib

set_option maxRecDepth 8000

/-!
Verification development for the `shrinkx` video-compression tool.

The repository consists of two Python files, `src/shrinkx/shrinkx.py`
(the current package) and `src/shrinkr.py` (an earlier single-file
version).  Both share the same core: `compress_file` runs a binary
search over an integer bitrate interval `(min_bitrate, max_bitrate)`
starting at `(0, 10000)`, invoking the external `ffmpeg` encoder once
per iteration and measuring the byte size of the file left at the
output path, and `parse_size` turns a human-readable size string into
a byte count.

This file shallowly embeds that code:

* the external encoder is a black box `encode : Int → EncoderOutcome`
  keyed by the candidate bitrate (the only datum of the ffmpeg command
  that varies across iterations); an outcome records whether the
  process could be spawned, its exit status, and the size of the file
  it wrote to the output path (if any);
* the `while max_bitrate - min_bitrate > 1` loop becomes
  `searchLoopFuel`, a structurally recursive function with an explicit
  fuel argument; `compress_file` instantiates the fuel with the
  initial interval width 10000, which `searchLoopFuel_width` proves
  sufficient (each iteration strictly shrinks the width);
* Python ints are `Int` (bitrate bounds) and byte counts are `Nat`;
  Python `//` (floor division) is `Int.fdiv`;
* raised exceptions are the `Except` error component; Python functions
  that print are given an explicit console transcript (a list of the
  written string fragments), so that the quiet-mode spinner can be
  modelled without letting it touch the search state.
-/

namespace Shrinkx

/-- Outcome of one invocation of the external encoder process for a
given candidate bitrate: whether the executable could be spawned at
all (`started = false` models the `OSError`/`FileNotFoundError` that
`subprocess.run`/`Popen` raise for a missing executable), the exit
status of the process, and the size in bytes of the file the process
left at the output path (`none` when it wrote nothing). -/
structure EncoderOutcome where
  started : Bool
  exitCode : Int
  written : Option Nat
deriving Repr, DecidableEq

/-- Exceptions that can escape the search loop of `compress_file`:
the spawn failure above, or the `FileNotFoundError` raised by
`os.path.getsize` when no file exists at the output path after an
attempt. -/
inductive PyError where
  | spawnFailure
  | missingOutput
deriving Repr, DecidableEq

/-- One performed encoding attempt: the candidate bitrate passed to
the encoder and the byte size measured by `os.path.getsize` right
after the attempt. -/
structure Attempt where
  bitrate : Int
  size : Nat
deriving Repr, DecidableEq

/-- State returned by the search loop when it exits normally: the
final bounds `min_bitrate`/`max_bitrate`, the Python `size` variable
(`none` while still unbound), the chronological list of attempts, the
console fragments written during the loop, and the position of the
spinner cycle. -/
structure LoopResult where
  lo : Int
  hi : Int
  sizeVar : Option Nat
  attempts : List Attempt
  console : List String
  spin : Nat
deriving Repr, DecidableEq

/-- Bitrate midpoint `(max_bitrate + min_bitrate) // 2` (shrinkx.py
line 72, shrinkr.py line 41); Python `//` is floor division, `Int.fdiv`. -/
def pyMid (lo hi : Int) : Int := (hi + lo).fdiv 2

/-- The bound update of lines 94-97 of shrinkx.py (56-59 of
shrinkr.py): given the measured size of the attempt at `pyMid lo hi`,
shrink the upper bound to the midpoint when the artifact is above the
target, and raise the lower bound to it otherwise. -/
def nextBounds (lo hi : Int) (s target : Nat) : Int × Int :=
  if s > target then (lo, pyMid lo hi) else (pyMid lo hi, hi)

/-- File state at the output path after one attempt: `ffmpeg` either
overwrote the file (`written = some s`) or left the previous disk
content untouched. -/
def diskAfter (written disk : Option Nat) : Option Nat :=
  match written with
  | some s => some s
  | none => disk

/-- The ten braille glyphs of the quiet-mode spinner (line 53). -/
def spinnerGlyphs : List String :=
  ["⠋", "⠙", "⠹", "⠸", "⠼", "⠴", "⠦", "⠧", "⠇", "⠏"]

/-- Console fragments produced by `count` polls of the liveness loop
(lines 86-90): each poll writes the next glyph of the cycle followed
by a backspace. `start` is the current position in the cycle. -/
def spinnerFrames (start count : Nat) : List String :=
  (List.range count).map fun j =>
    (spinnerGlyphs.getD ((start + j) % 10) "") ++ "\x08"

/-- Prepend the record of one attempt (its trace entry and its console
fragments) to the outcome of the rest of the loop. -/
def withAttempt (mid : Int) (s : Nat) (frames : List String) :
    Except PyError LoopResult → Except PyError LoopResult
  | .error e => .error e
  | .ok r => .ok { r with attempts := ⟨mid, s⟩ :: r.attempts,
                          console := frames ++ r.console }

/-- The `while max_bitrate - min_bitrate > 1` loop of `compress_file`
(shrinkx.py lines 71-97), with an explicit fuel argument standing in
for the termination argument; `compress_file` below calls it with
fuel = 10000, the initial interval width, which is sufficient because
every iteration strictly shrinks the width (`searchLoopFuel_width`).
Per iteration: compute the midpoint, spawn the encoder at it (an
unstartable executable raises), render the spinner in quiet mode
(`show_background = false`, with `polls k` liveness polls for attempt
number `k`), measure the file at the output path with
`os.path.getsize` (raising if there is none), and update the bounds
with `nextBounds`.  The exit status of the encoder is not inspected
anywhere — the Python code calls `subprocess.run`/`Popen` without
`check=True` and never reads `returncode`. -/
def searchLoopFuel (encode : Int → EncoderOutcome) (target : Nat)
    (show_background : Bool) (polls : Nat → Nat) :
    Nat → Int → Int → Option Nat → Option Nat → Nat → Nat →
    Except PyError LoopResult
  | 0, lo, hi, sizeVar, _disk, spin, _k => .ok ⟨lo, hi, sizeVar, [], [], spin⟩
  | fuel + 1, lo, hi, sizeVar, disk, spin, k =>
    if hi - lo > 1 then
      let mid := pyMid lo hi
      let out := encode mid
      if out.started then
        let frames := if show_background then [] else spinnerFrames spin (polls k)
        let spin' := if show_background then spin else spin + polls k
        match diskAfter out.written disk with
        | none => .error .missingOutput
        | some s =>
          withAttempt mid s frames
            (searchLoopFuel encode target show_background polls fuel
              (nextBounds lo hi s target).1 (nextBounds lo hi s target).2
              (some s) (some s) spin' (k + 1))
      else .error .spawnFailure
    else .ok ⟨lo, hi, sizeVar, [], [], spin⟩

/-- Model of `os.path.basename` for POSIX paths: the part of the path
after the last slash. -/
def basename (p : String) : String :=
  String.mk ((p.data.reverse.takeWhile (fun c => c ≠ '/')).reverse)

/-- Model of `os.path.dirname` for POSIX paths: everything up to the
last slash, with trailing slashes stripped unless the prefix consists
of slashes only. -/
def dirname (p : String) : String :=
  let head := (p.data.reverse.dropWhile (fun c => c ≠ '/')).reverse
  if head.all (fun c => c = '/') then String.mk head
  else String.mk ((head.reverse.dropWhile (fun c => c = '/')).reverse)

/-- Model of `os.path.splitext` on a basename (no slash): split at the
last dot, provided some earlier character of the name is not a dot
(so names consisting of leading dots keep their "extension"). -/
def splitext (p : String) : String × String :=
  let cs := p.data
  let rev := cs.reverse
  let afterDot := rev.takeWhile (fun c => c ≠ '.')
  if afterDot.length = cs.length then (p, "")
  else
    let pre := (rev.drop (afterDot.length + 1)).reverse
    if pre.any (fun c => c ≠ '.') then
      (String.mk pre, String.mk ('.' :: afterDot.reverse))
    else (p, "")

/-- Model of `os.path.join` for a relative second component. -/
def joinPath (d f : String) : String :=
  if d = "" then f
  else if d.data.getLast? = some '/' then d ++ f
  else d ++ "/" ++ f

/-- Codec profile for one output format: video codec, audio codec,
extra encoder flags. -/
structure CodecProfile where
  video : String
  audio : String
  flags : List String
deriving Repr, DecidableEq

/-- The `codec_map` dictionary of shrinkx.py lines 56-61. -/
def codec_map (fmt : String) : Option CodecProfile :=
  if fmt = "mp4" then some ⟨"libx264", "aac", ["-preset", "ultrafast"]⟩
  else if fmt = "webm" then some ⟨"libvpx-vp9", "libopus", ["-speed", "4", "-row-mt", "1"]⟩
  else if fmt = "mkv" then some ⟨"libx264", "aac", ["-preset", "ultrafast"]⟩
  else if fmt = "avi" then some ⟨"mpeg4", "mp3", ["-qscale:v", "5"]⟩
  else none

/-- The ffmpeg command line built in lines 73-80 of shrinkx.py.  The
search loop treats the resulting process as a black box keyed by the
bitrate, the only component of this list that changes between
iterations; this definition records the full invocation contract. -/
def ffmpeg_cmd (input_file output_file : String) (p : CodecProfile)
    (bitrate : Int) (no_audio : Bool) : List String :=
  ["ffmpeg", "-y", "-i", input_file, "-c:v", p.video, "-b:v",
    toString bitrate ++ "k"] ++ p.flags ++
  (if no_audio then ["-an"] else ["-c:a", p.audio, "-b:a", "128k"]) ++
  [output_file]

/-- Value of `compress_file` when it returns without raising: the
Python return value (`none` models returning `None` in the
unsupported-format branch), the `size` variable printed after the
loop, the attempts performed, and the console transcript. -/
structure CompressResult where
  output : Option String
  lastSize : Option Nat
  attempts : List Attempt
  console : List String
deriving Repr, DecidableEq

/-- The output path computed in lines 39-45 of shrinkx.py: the input
file's directory (or the explicit output directory), joined with the
input's basename stripped of its extension, the `_compressed` suffix
and the requested format as extension. -/
def output_path (input_file : String) (output_dir : Option String)
    (output_format : String) : String :=
  let odir := match output_dir with
    | none => dirname input_file
    | some d => d
  let base_name := basename input_file
  let name := (splitext base_name).1
  joinPath odir (name ++ "_compressed." ++ output_format)

/-- Embedding of `compress_file` (shrinkx.py lines 37-100).  The
encoder black box plays the role of the spawned ffmpeg process; the
`polls` argument gives, per attempt, how many liveness polls the quiet
mode performs while waiting (a quantity determined by real time in the
Python code).  The final `print` of the Python code formats
`size/1024/1024` as a float; the transcript records the raw byte count
instead, since the claims never concern the float formatting. -/
def compress_file (encode : Int → EncoderOutcome) (input_file : String)
    (target_size : Nat) (output_format : String) (show_background : Bool)
    (no_audio : Bool) (output_dir : Option String) (polls : Nat → Nat) :
    Except PyError CompressResult :=
  let output_file := output_path input_file output_dir output_format
  let preConsole := ["Compressing files, please wait..."]
  match codec_map output_format with
  | none =>
      .ok ⟨none, none, [],
        preConsole ++ ["Unsupported output format: " ++ output_format]⟩
  | some _profile =>
    match searchLoopFuel encode target_size show_background polls
        10000 0 10000 none none 0 0 with
    | .error e => .error e
    | .ok r =>
        .ok ⟨some output_file, r.sizeVar, r.attempts,
          preConsole ++ r.console ++
            ["Final file size: " ++ toString (r.sizeVar.getD 0)]⟩

/-- ASCII lowering of one character, the effect of Python `str.lower`
on the ASCII strings the size parser deals with. -/
def lowerChar (c : Char) : Char :=
  if 'A' ≤ c ∧ c ≤ 'Z' then Char.ofNat (c.toNat + 32) else c

/-- Model of Python `str.lower` (ASCII range). -/
def pyLower (s : String) : String := String.mk (s.data.map lowerChar)

/-- Whether the character list ends with the given two-character
suffix, the `str.endswith` checks of `parse_size`. -/
def endsWith2 (cs : List Char) (a b : Char) : Bool :=
  match cs.reverse with
  | x :: y :: _ => x = b ∧ y = a
  | _ => false

/-- Drop the final two characters, Python `s[:-2]`. -/
def dropLast2 (s : String) : String :=
  String.mk (s.data.take (s.data.length - 2))

/-- Numeric value of a digit string. -/
def digitsVal (cs : List Char) : Nat :=
  cs.foldl (fun a c => a * 10 + (c.toNat - 48)) 0

/-- Model of Python `int(str)` restricted to nonnegative pure-digit
literals, the only shape the claims quantify over; other forms Python
would accept (sign, surrounding whitespace, underscores) are mapped to
`none` alongside the genuinely malformed strings that raise
`ValueError`. -/
def pyIntOfString (s : String) : Option Nat :=
  if s.data ≠ [] ∧ s.data.all (fun c => '0' ≤ c ∧ c ≤ '9') then
    some (digitsVal s.data)
  else none

/-- Fuelled floor base-2 logarithm; `fuel ≥ n` makes it total on the
range of interest (each step halves `n`, so at most `log₂ n` steps are
taken).  It is structurally recursive so that concrete counterexample
evaluations reduce inside the kernel. -/
def log2fuel : Nat → Nat → Nat
  | 0, _ => 0
  | fuel + 1, n => if n ≤ 1 then 0 else log2fuel fuel (n / 2) + 1

/-- Floor base-2 logarithm. -/
def natLog2 (n : Nat) : Nat := log2fuel n n

/-- With sufficient fuel, `log2fuel` computes the floor base-2
logarithm: `2 ^ log2fuel fuel n ≤ n < 2 ^ (log2fuel fuel n + 1)`. -/
theorem log2fuel_spec :
    ∀ fuel n, 1 ≤ n → n ≤ fuel →
      2 ^ log2fuel fuel n ≤ n ∧ n < 2 ^ (log2fuel fuel n + 1) := by
  intro fuel
  induction fuel with
  | zero => intro n h1 h2; omega
  | succ f ih =>
    intro n h1 h2
    by_cases hn : n ≤ 1
    · simp only [log2fuel, if_pos hn]
      constructor <;> simp <;> omega
    · simp only [log2fuel, if_neg hn]
      have ihh := ih (n / 2) (by omega) (by omega)
      have e1 : 2 ^ (log2fuel f (n / 2) + 1) = 2 * 2 ^ log2fuel f (n / 2) := by
        ring
      have e2 : 2 ^ (log2fuel f (n / 2) + 1 + 1) =
          2 * 2 ^ (log2fuel f (n / 2) + 1) := by ring
      omega

/-- Characterization of `natLog2` as the floor base-2 logarithm. -/
theorem natLog2_spec (n : Nat) (h : 1 ≤ n) :
    2 ^ natLog2 n ≤ n ∧ n < 2 ^ (natLog2 n + 1) :=
  log2fuel_spec n n h (le_refl n)

/-- Round a natural number to 53 significant bits, ties to even: the
value of the IEEE-754 binary64 nearest to `n`, hence the exact
mathematical value of CPython `float(s)` for a digit string `s` of
value `n` (CPython floats are binary64 and `float(str)` is correctly
rounded).  Values at least `2 ^ 1024` after rounding correspond to the
overflow to `inf`. -/
def roundFloat53 (n : Nat) : Nat :=
  if n < 2 ^ 53 then n
  else
    let e := natLog2 n - 52
    let q := n / 2 ^ e
    let r := n % 2 ^ e
    if r > 2 ^ (e - 1) ∨ (r = 2 ^ (e - 1) ∧ q % 2 = 1) then (q + 1) * 2 ^ e
    else q * 2 ^ e

/-- Model of `int(float(s))` for a digit string of value `n`:
`float(s)` is the correctly rounded binary64 value (`roundFloat53`),
and `int` of an infinite float raises `OverflowError` (`none`). -/
def pyIntOfFloatDigits (n : Nat) : Option Nat :=
  if roundFloat53 n < 2 ^ 1024 then some (roundFloat53 n) else none

/-- Model of `int(float(s) * m)` for a digit string of value `n` and a
power-of-two literal `m` (1024, 1024² or 1024³): multiplying a finite
binary64 by a power of two only moves the exponent, so the product is
exact unless it overflows to `inf`, in which case `int` raises. -/
def pyFloatTimes (n m : Nat) : Option Nat :=
  (pyIntOfFloatDigits n).bind fun v =>
    if v * m < 2 ^ 1024 then some (v * m) else none

/-- Embedding of `parse_size` of shrinkx.py (lines 102-111):
`int(float(s[:-2]) * 1024)` and friends, selected by the lowercased
suffix, with a bare `int(s)` fallback.  `none` models the exception
paths (`ValueError` from `float`/`int`, `OverflowError` from `int` of
an infinite float). -/
def parse_size (size_str : String) : Option Nat :=
  let s := pyLower size_str
  if endsWith2 s.data 'k' 'b' then
    (pyIntOfString (dropLast2 s)).bind fun n => pyFloatTimes n 1024
  else if endsWith2 s.data 'm' 'b' then
    (pyIntOfString (dropLast2 s)).bind fun n => pyFloatTimes n (1024 * 1024)
  else if endsWith2 s.data 'g' 'b' then
    (pyIntOfString (dropLast2 s)).bind fun n => pyFloatTimes n (1024 * 1024 * 1024)
  else pyIntOfString s

/-- Embedding of `parse_size` of shrinkr.py (lines 65-74), which uses
exact integer arithmetic `int(s[:-2]) * 1024` with no float
conversion. -/
def parse_size_shrinkr (size_str : String) : Option Nat :=
  let s := pyLower size_str
  if endsWith2 s.data 'k' 'b' then
    (pyIntOfString (dropLast2 s)).map (· * 1024)
  else if endsWith2 s.data 'm' 'b' then
    (pyIntOfString (dropLast2 s)).map (· * (1024 * 1024))
  else if endsWith2 s.data 'g' 'b' then
    (pyIntOfString (dropLast2 s)).map (· * (1024 * 1024 * 1024))
  else pyIntOfString s

/-- Usage line configured in shrinkx.py line 114
(`usage='%(prog)s [flag] file/link'`), standing in for the
argparse-generated help text that `print_help` writes. -/
def usage_line : String := "usage: shrinkx [flag] file/link"

/-- Exit code raised by `CustomArgumentParser.error` (shrinkx.py lines
12-16): after writing the error message and the help text it calls
`sys.exit(2)`. -/
def argparse_error_exit : Int := 2

/-- The `except SystemExit: sys.exit(0)` handler of shrinkx.py lines
153-154: whatever exit code the `SystemExit` raised inside the `try`
block carried, the program re-exits with status 0. -/
def main_systemExit_handler (_raised : Int) : Int := 0

/-- Command-line arguments as seen after `parser.parse_args()`: either
argparse detected a malformed invocation (unrecognized option, missing
required argument, or a size string whose `parse_size` conversion
raised) and called `CustomArgumentParser.error`, or parsing succeeded
with the given settings. -/
inductive CliArgs where
  | malformed (msg : String)
  | parsed (target_size : Nat) (fmt : String) (show_background : Bool)
      (no_audio : Bool) (output_dir : Option String)
deriving Repr, DecidableEq

/-- Python `f"...{output_file}"` interpolation of the value returned
by `compress_file`: `None` prints as the string `None`. -/
def pyShowOpt : Option String → String
  | none => "None"
  | some s => s

/-- Console text of `str(e)` for the exceptions the embedding
models. -/
def pyErrorMsg : PyError → String
  | .spawnFailure => "No such file or directory: 'ffmpeg'"
  | .missingOutput => "No such file or directory"

/-- Observable outcome of one run of the shrinkx command-line program:
its process exit status, console transcript, and whether
`os.remove(input_file)` was executed. -/
structure MainResult where
  exitCode : Int
  console : List String
  removedInput : Bool
deriving Repr, DecidableEq

/-- Embedding of `main()` of shrinkx.py (lines 113-154) for a local
input file (the YouTube-link branch, which downloads first, only
changes which local path reaches `compress_file`).  Control flow of
the `try` block:

* malformed arguments: argparse calls `CustomArgumentParser.error`,
  which prints the message and the help text and raises
  `SystemExit(2)`; `SystemExit` is not an `Exception`, so it reaches
  the `except SystemExit` handler, which exits with status 0;
* an exception escaping `compress_file` is caught by
  `except Exception`: the message and the help text are printed, the
  handler falls through, and the process exits 0;
* otherwise the output path is printed and, whenever
  `input_file != output_file` — comparing the input path with the
  returned value, which may be `None` — the input file is removed;
  the process exits 0. -/
def shrinkx_main (encode : Int → EncoderOutcome) (input_file : String)
    (args : CliArgs) (polls : Nat → Nat) : MainResult :=
  match args with
  | .malformed msg =>
      ⟨main_systemExit_handler argparse_error_exit,
        ["error: " ++ msg, usage_line], false⟩
  | .parsed target_size fmt sb na od =>
      match compress_file encode input_file target_size fmt sb na od polls with
      | .error e => ⟨0, [pyErrorMsg e, usage_line], false⟩
      | .ok r =>
          ⟨0, r.console ++ ["Compressed file saved as " ++ pyShowOpt r.output],
            decide (r.output ≠ some input_file)⟩

/-- Python floor division characterization of the midpoint:
`pyMid lo hi` is the unique integer with
`2 * mid ≤ lo + hi < 2 * mid + 2`. -/
theorem pyMid_char (lo hi : Int) :
    2 * pyMid lo hi ≤ hi + lo ∧ hi + lo < 2 * pyMid lo hi + 2 := by
  rw [pyMid, Int.fdiv_eq_ediv _ (by norm_num)]
  omega

/-- While the loop guard holds, the midpoint lies strictly inside the
interval. -/
theorem pyMid_mem (lo hi : Int) (h : hi - lo > 1) :
    lo < pyMid lo hi ∧ pyMid lo hi < hi := by
  have := pyMid_char lo hi
  omega

/-- Bounds produced by `nextBounds` never move outside the current
interval: the lower bound never decreases and the upper bound never
increases. -/
theorem nextBounds_sub (lo hi : Int) (s target : Nat) (h : hi - lo > 1) :
    lo ≤ (nextBounds lo hi s target).1 ∧ (nextBounds lo hi s target).2 ≤ hi ∧
    (nextBounds lo hi s target).1 < (nextBounds lo hi s target).2 ∧
    (nextBounds lo hi s target).2 - (nextBounds lo hi s target).1 < hi - lo ∧
    (lo < (nextBounds lo hi s target).1 ∨ (nextBounds lo hi s target).2 < hi) := by
  have hm := pyMid_mem lo hi h
  rw [nextBounds]
  split <;> constructor <;> simp <;> omega

/-- Unfolding of one successful loop iteration: when the guard holds,
the encoder process starts, and a file of size `s` is on disk at the
output path afterwards, the loop records exactly one attempt at the
midpoint bitrate, renders the quiet-mode spinner frames, and continues
with the bounds given by `nextBounds`. -/
theorem searchLoopFuel_succ_ok (encode : Int → EncoderOutcome) (target : Nat)
    (sb : Bool) (polls : Nat → Nat) (n : Nat) (lo hi : Int)
    (sv disk : Option Nat) (spin k s : Nat)
    (hg : hi - lo > 1) (hs : (encode (pyMid lo hi)).started = true)
    (hd : diskAfter (encode (pyMid lo hi)).written disk = some s) :
    searchLoopFuel encode target sb polls (n + 1) lo hi sv disk spin k =
      withAttempt (pyMid lo hi) s
        (if sb then [] else spinnerFrames spin (polls k))
        (searchLoopFuel encode target sb polls n
          (nextBounds lo hi s target).1 (nextBounds lo hi s target).2
          (some s) (some s) (if sb then spin else spin + polls k) (k + 1)) := by
  simp only [searchLoopFuel]
  rw [if_pos hg, if_pos hs, hd]

/-- Unfolding of a loop iteration whose encoder process cannot be
spawned: the exception aborts the loop at once. -/
theorem searchLoopFuel_succ_noStart (encode : Int → EncoderOutcome) (target : Nat)
    (sb : Bool) (polls : Nat → Nat) (n : Nat) (lo hi : Int)
    (sv disk : Option Nat) (spin k : Nat)
    (hg : hi - lo > 1) (hs : (encode (pyMid lo hi)).started = false) :
    searchLoopFuel encode target sb polls (n + 1) lo hi sv disk spin k =
      .error .spawnFailure := by
  simp only [searchLoopFuel]
  rw [if_pos hg, if_neg (by simp [hs])]

/-- Unfolding of a loop iteration after which no file exists at the
output path: `os.path.getsize` raises and the loop aborts. -/
theorem searchLoopFuel_succ_noFile (encode : Int → EncoderOutcome) (target : Nat)
    (sb : Bool) (polls : Nat → Nat) (n : Nat) (lo hi : Int)
    (sv disk : Option Nat) (spin k : Nat)
    (hg : hi - lo > 1) (hs : (encode (pyMid lo hi)).started = true)
    (hd : diskAfter (encode (pyMid lo hi)).written disk = none) :
    searchLoopFuel encode target sb polls (n + 1) lo hi sv disk spin k =
      .error .missingOutput := by
  simp only [searchLoopFuel]
  rw [if_pos hg, if_pos hs, hd]

/-- Unfolding of the loop when the guard fails: the loop exits with
the current state and performs no attempt. -/
theorem searchLoopFuel_done (encode : Int → EncoderOutcome) (target : Nat)
    (sb : Bool) (polls : Nat → Nat) (fuel : Nat) (lo hi : Int)
    (sv disk : Option Nat) (spin k : Nat)
    (hg : ¬ hi - lo > 1) :
    searchLoopFuel encode target sb polls fuel lo hi sv disk spin k =
      .ok ⟨lo, hi, sv, [], [], spin⟩ := by
  cases fuel with
  | zero => simp only [searchLoopFuel]
  | succ n =>
    simp only [searchLoopFuel]
    rw [if_neg hg]

/-- Monotonicity and invariant preservation through the whole loop:
when the loop returns normally, the final interval is contained in the
initial one and, when the initial bounds are ordered, so are the final
ones. -/
theorem searchLoopFuel_mono (encode : Int → EncoderOutcome) (target : Nat)
    (sb : Bool) (polls : Nat → Nat) :
    ∀ fuel lo hi sv disk spin k r,
      searchLoopFuel encode target sb polls fuel lo hi sv disk spin k = .ok r →
      lo ≤ r.lo ∧ r.hi ≤ hi ∧ (lo < hi → r.lo < r.hi) := by
  intro fuel
  induction fuel with
  | zero =>
    intro lo hi sv disk spin k r hr
    simp only [searchLoopFuel] at hr
    cases hr
    simp
  | succ n ih =>
    intro lo hi sv disk spin k r hr
    by_cases hg : hi - lo > 1
    · by_cases hs : (encode (pyMid lo hi)).started = true
      · rcases hdisk : diskAfter (encode (pyMid lo hi)).written disk with _ | s
        · rw [searchLoopFuel_succ_noFile encode target sb polls n lo hi sv disk
              spin k hg hs hdisk] at hr
          cases hr
        · rw [searchLoopFuel_succ_ok encode target sb polls n lo hi sv disk
              spin k s hg hs hdisk] at hr
          rcases hrec : searchLoopFuel encode target sb polls n
              (nextBounds lo hi s target).1 (nextBounds lo hi s target).2
              (some s) (some s)
              (if sb then spin else spin + polls k) (k + 1) with e | r'
          · rw [hrec] at hr
            simp only [withAttempt] at hr
            cases hr
          · rw [hrec] at hr
            simp only [withAttempt] at hr
            cases hr
            dsimp only
            have hsub := nextBounds_sub lo hi s target hg
            have hih := ih _ _ _ _ _ _ _ hrec
            exact ⟨by omega, by omega, fun _ => by omega⟩
      · rw [searchLoopFuel_succ_noStart encode target sb polls n lo hi sv disk
            spin k hg (by simpa using hs)] at hr
        cases hr
    · rw [searchLoopFuel_done encode target sb polls (n + 1) lo hi sv disk
          spin k hg] at hr
      cases hr
      simp

/-- When the fuel is at least the initial interval width, the loop
runs to convergence: the final interval width is at most 1. -/
theorem searchLoopFuel_width (encode : Int → EncoderOutcome) (target : Nat)
    (sb : Bool) (polls : Nat → Nat) :
    ∀ fuel lo hi sv disk spin k r,
      searchLoopFuel encode target sb polls fuel lo hi sv disk spin k = .ok r →
      hi - lo ≤ (fuel : Int) → r.hi - r.lo ≤ 1 := by
  intro fuel
  induction fuel with
  | zero =>
    intro lo hi sv disk spin k r hr hf
    simp only [searchLoopFuel] at hr
    cases hr
    simp only [Nat.cast_zero] at hf
    simp
    omega
  | succ n ih =>
    intro lo hi sv disk spin k r hr hf
    by_cases hg : hi - lo > 1
    · by_cases hs : (encode (pyMid lo hi)).started = true
      · rcases hdisk : diskAfter (encode (pyMid lo hi)).written disk with _ | s
        · rw [searchLoopFuel_succ_noFile encode target sb polls n lo hi sv disk
              spin k hg hs hdisk] at hr
          cases hr
        · rw [searchLoopFuel_succ_ok encode target sb polls n lo hi sv disk
              spin k s hg hs hdisk] at hr
          rcases hrec : searchLoopFuel encode target sb polls n
              (nextBounds lo hi s target).1 (nextBounds lo hi s target).2
              (some s) (some s)
              (if sb then spin else spin + polls k) (k + 1) with e | r'
          · rw [hrec] at hr
            simp only [withAttempt] at hr
            cases hr
          · rw [hrec] at hr
            simp only [withAttempt] at hr
            cases hr
            dsimp only
            have hsub := nextBounds_sub lo hi s target hg
            refine ih _ _ _ _ _ _ _ hrec ?_
            push_cast at hf
            omega
      · rw [searchLoopFuel_succ_noStart encode target sb polls n lo hi sv disk
            spin k hg (by simpa using hs)] at hr
        cases hr
    · rw [searchLoopFuel_done encode target sb polls (n + 1) lo hi sv disk
          spin k hg] at hr
      cases hr
      simp
      omega

/-- One bound update at most halves the interval width (rounding up):
twice the new width is at most the old width plus one. -/
theorem nextBounds_halves (lo hi : Int) (s target : Nat) :
    2 * ((nextBounds lo hi s target).2 - (nextBounds lo hi s target).1) ≤
      hi - lo + 1 := by
  have := pyMid_char lo hi
  rw [nextBounds]
  split <;> simp <;> omega

/-- Logarithmic bound on the number of encoding attempts: when the
initial width is at most `2 ^ b`, a normally returning loop performs
at most `b` attempts, whatever the fuel. -/
theorem searchLoopFuel_count (encode : Int → EncoderOutcome) (target : Nat)
    (sb : Bool) (polls : Nat → Nat) :
    ∀ fuel (b : Nat) (lo hi : Int) sv disk spin k r,
      searchLoopFuel encode target sb polls fuel lo hi sv disk spin k = .ok r →
      hi - lo ≤ 2 ^ b → r.attempts.length ≤ b := by
  intro fuel
  induction fuel with
  | zero =>
    intro b lo hi sv disk spin k r hr hb
    simp only [searchLoopFuel] at hr
    cases hr
    simp
  | succ n ih =>
    intro b lo hi sv disk spin k r hr hb
    by_cases hg : hi - lo > 1
    · by_cases hs : (encode (pyMid lo hi)).started = true
      · rcases hdisk : diskAfter (encode (pyMid lo hi)).written disk with _ | s
        · rw [searchLoopFuel_succ_noFile encode target sb polls n lo hi sv disk
              spin k hg hs hdisk] at hr
          cases hr
        · rw [searchLoopFuel_succ_ok encode target sb polls n lo hi sv disk
              spin k s hg hs hdisk] at hr
          rcases hrec : searchLoopFuel encode target sb polls n
              (nextBounds lo hi s target).1 (nextBounds lo hi s target).2
              (some s) (some s)
              (if sb then spin else spin + polls k) (k + 1) with e | r'
          · rw [hrec] at hr
            simp only [withAttempt] at hr
            cases hr
          · rw [hrec] at hr
            simp only [withAttempt] at hr
            cases hr
            rcases b with _ | m
            · exfalso
              simp only [pow_zero] at hb
              omega
            · have hp : (2 : Int) ^ (m + 1) = 2 * 2 ^ m := by ring
              have hhalf := nextBounds_halves lo hi s target
              have hih := ih m _ _ _ _ _ _ _ hrec (by omega)
              simpa using hih
      · rw [searchLoopFuel_succ_noStart encode target sb polls n lo hi sv disk
            spin k hg (by simpa using hs)] at hr
        cases hr
    · rw [searchLoopFuel_done encode target sb polls (n + 1) lo hi sv disk
          spin k hg] at hr
      cases hr
      simp

/-- The Python `size` variable at loop exit is the size measured at
the last attempt actually performed (or keeps its incoming value when
the loop body never ran). -/
theorem searchLoopFuel_sizeVar (encode : Int → EncoderOutcome) (target : Nat)
    (sb : Bool) (polls : Nat → Nat) :
    ∀ fuel lo hi sv disk spin k r,
      searchLoopFuel encode target sb polls fuel lo hi sv disk spin k = .ok r →
      r.sizeVar = match r.attempts.getLast? with
        | some a => some a.size
        | none => sv := by
  intro fuel
  induction fuel with
  | zero =>
    intro lo hi sv disk spin k r hr
    simp only [searchLoopFuel] at hr
    cases hr
    simp
  | succ n ih =>
    intro lo hi sv disk spin k r hr
    by_cases hg : hi - lo > 1
    · by_cases hs : (encode (pyMid lo hi)).started = true
      · rcases hdisk : diskAfter (encode (pyMid lo hi)).written disk with _ | s
        · rw [searchLoopFuel_succ_noFile encode target sb polls n lo hi sv disk
              spin k hg hs hdisk] at hr
          cases hr
        · rw [searchLoopFuel_succ_ok encode target sb polls n lo hi sv disk
              spin k s hg hs hdisk] at hr
          rcases hrec : searchLoopFuel encode target sb polls n
              (nextBounds lo hi s target).1 (nextBounds lo hi s target).2
              (some s) (some s)
              (if sb then spin else spin + polls k) (k + 1) with e | r'
          · rw [hrec] at hr
            simp only [withAttempt] at hr
            cases hr
          · rw [hrec] at hr
            simp only [withAttempt] at hr
            cases hr
            dsimp only
            have hih := ih _ _ _ _ _ _ _ hrec
            rcases hl : r'.attempts with _ | ⟨a, l⟩
            · rw [hl] at hih
              simpa using hih
            · rw [hl] at hih
              rw [List.getLast?_cons_cons]
              simpa using hih
      · rw [searchLoopFuel_succ_noStart encode target sb polls n lo hi sv disk
            spin k hg (by simpa using hs)] at hr
        cases hr
    · rw [searchLoopFuel_done encode target sb polls (n + 1) lo hi sv disk
          spin k hg] at hr
      cases hr
      simp

/-- Projection of a loop outcome to the data the search result depends
on: final bounds, the `size` variable, and the full attempt trace —
everything except the cosmetic console transcript and spinner
position. -/
def searchView : Except PyError LoopResult →
    Except PyError (Int × Int × Option Nat × List Attempt)
  | .error e => .error e
  | .ok r => .ok (r.lo, r.hi, r.sizeVar, r.attempts)

/-- Non-interference of the liveness rendering: the search-relevant
part of the loop outcome does not depend on the verbosity mode, the
number of spinner polls of each attempt, the spinner position, or the
attempt numbering. -/
theorem searchLoopFuel_view (encode : Int → EncoderOutcome) (target : Nat)
    (sb sb' : Bool) (polls polls' : Nat → Nat) :
    ∀ fuel (lo hi : Int) sv disk spin spin' k k',
      searchView (searchLoopFuel encode target sb polls fuel lo hi sv disk spin k) =
      searchView (searchLoopFuel encode target sb' polls' fuel lo hi sv disk spin' k') := by
  intro fuel
  induction fuel with
  | zero =>
    intro lo hi sv disk spin spin' k k'
    simp only [searchLoopFuel, searchView]
  | succ n ih =>
    intro lo hi sv disk spin spin' k k'
    by_cases hg : hi - lo > 1
    · by_cases hs : (encode (pyMid lo hi)).started = true
      · rcases hdisk : diskAfter (encode (pyMid lo hi)).written disk with _ | s
        · rw [searchLoopFuel_succ_noFile encode target sb polls n lo hi sv disk
              spin k hg hs hdisk,
            searchLoopFuel_succ_noFile encode target sb' polls' n lo hi sv disk
              spin' k' hg hs hdisk]
        · rw [searchLoopFuel_succ_ok encode target sb polls n lo hi sv disk
              spin k s hg hs hdisk,
            searchLoopFuel_succ_ok encode target sb' polls' n lo hi sv disk
              spin' k' s hg hs hdisk]
          have hrec := ih (nextBounds lo hi s target).1 (nextBounds lo hi s target).2
              (some s) (some s)
              (if sb then spin else spin + polls k)
              (if sb' then spin' else spin' + polls' k') (k + 1) (k' + 1)
          rcases h1 : searchLoopFuel encode target sb polls n
              (nextBounds lo hi s target).1 (nextBounds lo hi s target).2
              (some s) (some s)
              (if sb then spin else spin + polls k) (k + 1) with e | r1 <;>
            rcases h2 : searchLoopFuel encode target sb' polls' n
                (nextBounds lo hi s target).1 (nextBounds lo hi s target).2
                (some s) (some s)
                (if sb' then spin' else spin' + polls' k') (k' + 1) with e' | r2 <;>
            rw [h1, h2] at hrec <;>
            simp only [searchView, withAttempt, Except.error.injEq,
              Except.ok.injEq, Prod.mk.injEq] at hrec ⊢
          · exact hrec
          · exact Except.noConfusion hrec
          · exact Except.noConfusion hrec
          · obtain ⟨e1, e2, e3, e4⟩ := hrec
            exact ⟨e1, e2, e3, by rw [e4]⟩
      · rw [searchLoopFuel_succ_noStart encode target sb polls n lo hi sv disk
            spin k hg (by simpa using hs),
          searchLoopFuel_succ_noStart encode target sb' polls' n lo hi sv disk
            spin' k' hg (by simpa using hs)]
    · rw [searchLoopFuel_done encode target sb polls (n + 1) lo hi sv disk
          spin k hg,
        searchLoopFuel_done encode target sb' polls' (n + 1) lo hi sv disk
          spin' k' hg]
      simp [searchView]

/-- Unfolding of `compress_file` for an output format with no codec
profile: after the initial message it prints the unsupported-format
message and returns `None`, raising nothing and performing no encoding
attempt. -/
theorem compress_file_unsupported (encode : Int → EncoderOutcome)
    (input_file : String) (target_size : Nat) (output_format : String)
    (sb na : Bool) (od : Option String) (polls : Nat → Nat)
    (hfmt : codec_map output_format = none) :
    compress_file encode input_file target_size output_format sb na od polls =
      .ok ⟨none, none, [],
        ["Compressing files, please wait...",
          "Unsupported output format: " ++ output_format]⟩ := by
  simp only [compress_file]
  rw [hfmt]
  rfl

/-- Unfolding of `compress_file` for a supported output format whose
search loop raises: the exception propagates. -/
theorem compress_file_loop_error (encode : Int → EncoderOutcome)
    (input_file : String) (target_size : Nat) (output_format : String)
    (sb na : Bool) (od : Option String) (polls : Nat → Nat) (p : CodecProfile)
    (e : PyError)
    (hfmt : codec_map output_format = some p)
    (hl : searchLoopFuel encode target_size sb polls 10000 0 10000
        none none 0 0 = .error e) :
    compress_file encode input_file target_size output_format sb na od polls =
      .error e := by
  simp only [compress_file]
  rw [hfmt, hl]

/-- Unfolding of `compress_file` for a supported output format whose
search loop exits normally: the function returns the output path, the
final `size` variable, and the attempt trace, and prints the final
size after the loop's console output. -/
theorem compress_file_loop_ok (encode : Int → EncoderOutcome)
    (input_file : String) (target_size : Nat) (output_format : String)
    (sb na : Bool) (od : Option String) (polls : Nat → Nat) (p : CodecProfile)
    (r : LoopResult)
    (hfmt : codec_map output_format = some p)
    (hl : searchLoopFuel encode target_size sb polls 10000 0 10000
        none none 0 0 = .ok r) :
    compress_file encode input_file target_size output_format sb na od polls =
      .ok ⟨some (output_path input_file od output_format), r.sizeVar, r.attempts,
        ["Compressing files, please wait..."] ++ r.console ++
          ["Final file size: " ++ toString (r.sizeVar.getD 0)]⟩ := by
  simp only [compress_file]
  rw [hfmt, hl]

/-- Encoder induced by a total, deterministic cost function from
bitrate to artifact size: every attempt spawns, exits 0, and writes a
file of size `f bitrate`. -/
def encOfCost (f : Int → Nat) : Int → EncoderOutcome :=
  fun b => ⟨true, 0, some (f b)⟩

/-- With a cost-function encoder, the loop never raises. -/
theorem searchLoopFuel_cost_ok (f : Int → Nat) (target : Nat) (sb : Bool)
    (polls : Nat → Nat) :
    ∀ fuel (lo hi : Int) sv disk spin k, ∃ r,
      searchLoopFuel (encOfCost f) target sb polls fuel lo hi sv disk spin k = .ok r := by
  intro fuel
  induction fuel with
  | zero =>
    intro lo hi sv disk spin k
    exact ⟨_, rfl⟩
  | succ n ih =>
    intro lo hi sv disk spin k
    by_cases hg : hi - lo > 1
    · rw [searchLoopFuel_succ_ok (encOfCost f) target sb polls n lo hi sv disk
          spin k (f (pyMid lo hi)) hg rfl rfl]
      obtain ⟨r', hr'⟩ := ih (nextBounds lo hi (f (pyMid lo hi)) target).1
        (nextBounds lo hi (f (pyMid lo hi)) target).2
        (some (f (pyMid lo hi))) (some (f (pyMid lo hi)))
        (if sb then spin else spin + polls k) (k + 1)
      rw [hr']
      exact ⟨_, rfl⟩
    · exact ⟨_, searchLoopFuel_done (encOfCost f) target sb polls (n + 1) lo hi
        sv disk spin k hg⟩

/-- Deterministic reference encoder whose artifact size equals the
candidate bitrate, used for concrete runs. -/
def encId : Int → EncoderOutcome := fun b => ⟨true, 0, some b.toNat⟩

/-- Encoder that always completes with exit status 1 while still
writing an artifact of size equal to the bitrate, as ffmpeg does when
it fails after creating the output file. -/
def encExitOne : Int → EncoderOutcome := fun b => ⟨true, 1, some b.toNat⟩

/-- Encoder whose executable cannot be spawned at all. -/
def encNoStart : Int → EncoderOutcome := fun _ => ⟨false, 0, none⟩

/-- Constant zero cost function. -/
def zeroCost : Int → Nat := fun _ => 0

/-- Poll schedule with no liveness polls. -/
def pollsZero : Nat → Nat := fun _ => 0

/-- Bounds of `nextBounds`, written out: high becomes the midpoint
when the measured size exceeds the target, low becomes the midpoint
otherwise. -/
theorem nextBounds_eq (lo hi : Int) (s target : Nat) :
    nextBounds lo hi s target =
      (if s > target then lo else pyMid lo hi,
        if s > target then pyMid lo hi else hi) := by
  rw [nextBounds]
  split <;> simp_all

/-- C1.  For every search state with `high - low > 1`, one iteration
of the bitrate search computes `mid = floor((low + high) / 2)` (the
first two conjuncts characterize `pyMid` as that floor), runs exactly
one encoding attempt at bitrate `mid`, measures the artifact's byte
size `s`, and continues with `high = mid` when `s > target_size_bytes`
and with `low = mid` otherwise; nothing else about the search state
changes: the attempt trace of the iteration is exactly `(mid, s)`
prepended to the rest, and the remaining loop receives the one updated
interval, the measured size, and the advanced spinner state. -/
theorem bitrate_search_iteration (encode : Int → EncoderOutcome) (target : Nat)
    (sb : Bool) (polls : Nat → Nat) (fuel : Nat) (lo hi : Int)
    (sv disk : Option Nat) (spin k s : Nat)
    (hg : hi - lo > 1)
    (hs : (encode (pyMid lo hi)).started = true)
    (hd : diskAfter (encode (pyMid lo hi)).written disk = some s) :
    2 * pyMid lo hi ≤ lo + hi ∧ lo + hi < 2 * pyMid lo hi + 2 ∧
    searchLoopFuel encode target sb polls (fuel + 1) lo hi sv disk spin k =
      withAttempt (pyMid lo hi) s
        (if sb then [] else spinnerFrames spin (polls k))
        (searchLoopFuel encode target sb polls fuel
          (if s > target then lo else pyMid lo hi)
          (if s > target then pyMid lo hi else hi)
          (some s) (some s) (if sb then spin else spin + polls k) (k + 1)) := by
  have hc := pyMid_char lo hi
  refine ⟨by omega, by omega, ?_⟩
  rw [searchLoopFuel_succ_ok encode target sb polls fuel lo hi sv disk
    spin k s hg hs hd, nextBounds_eq]

/-- Witness for C1: a concrete iteration from the initial state
`(0, 10000)` with the reference encoder and target 5000: the midpoint
is characterized as the floor, and the iteration encodes once at it
and raises the lower bound (5000 is not above the target). -/
theorem bitrate_search_iteration_witness :
    ((10000 : Int) - 0 > 1) ∧
    (encId (pyMid 0 10000)).started = true ∧
    diskAfter (encId (pyMid 0 10000)).written none = some 5000 ∧
    (2 * pyMid 0 10000 ≤ 0 + 10000 ∧ 0 + 10000 < 2 * pyMid 0 10000 + 2 ∧
      searchLoopFuel encId 5000 false pollsZero (3 + 1) 0 10000 none none 0 0 =
        withAttempt (pyMid 0 10000) 5000
          (if false then [] else spinnerFrames 0 (pollsZero 0))
          (searchLoopFuel encId 5000 false pollsZero 3
            (if 5000 > 5000 then 0 else pyMid 0 10000)
            (if 5000 > 5000 then pyMid 0 10000 else 10000)
            (some 5000) (some 5000) (if false then 0 else 0 + pollsZero 0)
            (0 + 1))) :=
  ⟨by decide, rfl, rfl,
    bitrate_search_iteration encId 5000 false pollsZero 3 0 10000 none none
      0 0 5000 (by decide) rfl rfl⟩

/-- C2.  For every positive target size and every total, deterministic
cost function from bitrate to artifact size, the search loop started
from `low = 0`, `high = 10000` terminates normally, performs at most
15 encoding attempts, and its final bounds satisfy
`high - low ≤ 1`. -/
theorem search_terminates_bounded (f : Int → Nat) (target : Nat) (sb : Bool)
    (polls : Nat → Nat) (htarget : 0 < target) :
    ∃ r, searchLoopFuel (encOfCost f) target sb polls 10000 0 10000
        none none 0 0 = .ok r ∧
      r.attempts.length ≤ 15 ∧ r.hi - r.lo ≤ 1 := by
  obtain ⟨r, hr⟩ := searchLoopFuel_cost_ok f target sb polls 10000 0 10000
    none none 0 0
  refine ⟨r, hr, ?_, ?_⟩
  · have h14 := searchLoopFuel_count (encOfCost f) target sb polls 10000 14
      0 10000 none none 0 0 r hr (by norm_num)
    omega
  · exact searchLoopFuel_width (encOfCost f) target sb polls 10000 0 10000
      none none 0 0 r hr (by norm_num)

/-- Witness for C2 at the constant-zero cost function and target 1. -/
theorem search_terminates_bounded_witness :
    0 < 1 ∧
    ∃ r, searchLoopFuel (encOfCost zeroCost) 1 false pollsZero 10000 0 10000
        none none 0 0 = .ok r ∧
      r.attempts.length ≤ 15 ∧ r.hi - r.lo ≤ 1 :=
  ⟨Nat.one_pos, search_terminates_bounded zeroCost 1 false pollsZero Nat.one_pos⟩

/-- C3.  The search-state invariant `0 ≤ low < high` is preserved:
under the loop guard, one bound update keeps `0 ≤ low' < high'`, never
decreases the lower bound, never increases the upper bound, strictly
shrinks the width, and moves at least one endpoint (so the new
interval is a strict subset of the old one); and across any number of
iterations of the loop a normal exit still satisfies
`0 ≤ low < high`. -/
theorem search_interval_invariant (lo hi : Int) (s target : Nat)
    (h0 : 0 ≤ lo) (hg : hi - lo > 1) :
    (0 ≤ (nextBounds lo hi s target).1 ∧
      (nextBounds lo hi s target).1 < (nextBounds lo hi s target).2 ∧
      lo ≤ (nextBounds lo hi s target).1 ∧
      (nextBounds lo hi s target).2 ≤ hi ∧
      (nextBounds lo hi s target).2 - (nextBounds lo hi s target).1 < hi - lo ∧
      (lo < (nextBounds lo hi s target).1 ∨ (nextBounds lo hi s target).2 < hi)) ∧
    ∀ (encode : Int → EncoderOutcome) (sb : Bool) (polls : Nat → Nat)
      (fuel : Nat) (sv disk : Option Nat) (spin k : Nat) (r : LoopResult),
      searchLoopFuel encode target sb polls fuel lo hi sv disk spin k = .ok r →
      0 ≤ r.lo ∧ r.lo < r.hi := by
  constructor
  · have hsub := nextBounds_sub lo hi s target hg
    exact ⟨by omega, by omega, by omega, by omega, by omega, by omega⟩
  · intro encode sb polls fuel sv disk spin k r hr
    have hm := searchLoopFuel_mono encode target sb polls fuel lo hi sv disk
      spin k r hr
    exact ⟨by omega, hm.2.2 (by omega)⟩

/-- Result of a concrete full search run used by witnesses: the
reference encoder against target 400. -/
def c3run : LoopResult :=
  match searchLoopFuel encId 400 false pollsZero 10000 0 10000 none none 0 0 with
  | .ok r => r
  | .error _ => ⟨0, 1, none, [], [], 0⟩

/-- Witness for C3: the step part at the state `(0, 10000)` with a
measured size of 500 against target 400, and the loop part at the
concrete full run `c3run`. -/
theorem search_interval_invariant_witness :
    ((0 : Int) ≤ 0) ∧ ((10000 : Int) - 0 > 1) ∧
    (0 ≤ (nextBounds 0 10000 500 400).1 ∧
      (nextBounds 0 10000 500 400).1 < (nextBounds 0 10000 500 400).2 ∧
      (0 : Int) ≤ (nextBounds 0 10000 500 400).1 ∧
      (nextBounds 0 10000 500 400).2 ≤ 10000 ∧
      (nextBounds 0 10000 500 400).2 - (nextBounds 0 10000 500 400).1 <
        10000 - 0 ∧
      ((0 : Int) < (nextBounds 0 10000 500 400).1 ∨
        (nextBounds 0 10000 500 400).2 < 10000)) ∧
    (0 ≤ c3run.lo ∧ c3run.lo < c3run.hi) :=
  ⟨le_refl 0, by decide,
    (search_interval_invariant 0 10000 500 400 (le_refl 0) (by decide)).1,
    (search_interval_invariant 0 10000 500 400 (le_refl 0) (by decide)).2
      encId false pollsZero 10000 none none 0 0 c3run rfl⟩

/-- Projection of a `compress_file` outcome to the data the caller's
result depends on: return value, reported size, and attempt trace —
everything except the console transcript. -/
def compressView : Except PyError CompressResult →
    Except PyError (Option String × Option Nat × List Attempt)
  | .error e => .error e
  | .ok r => .ok (r.output, r.lastSize, r.attempts)

/-- C7.  For every source, target size, format, audio setting and
deterministic encoder, running `compress_file` in quiet mode (spinner
polling, streams discarded, any number of polls per attempt) and in
verbose mode (streams passed through) raises the same exceptions or
returns the same output path, the same reported size, and the same
sequence of attempted bitrates with the same measured sizes: the
liveness rendering never influences the search's result. -/
theorem quiet_verbose_same_result (encode : Int → EncoderOutcome)
    (input : String) (target : Nat) (fmt : String) (na : Bool)
    (od : Option String) (polls polls' : Nat → Nat) :
    compressView (compress_file encode input target fmt false na od polls) =
    compressView (compress_file encode input target fmt true na od polls') := by
  rcases hfmt : codec_map fmt with _ | p
  · rw [compress_file_unsupported encode input target fmt false na od polls hfmt,
      compress_file_unsupported encode input target fmt true na od polls' hfmt]
  · have hv := searchLoopFuel_view encode target false true polls polls'
      10000 0 10000 none none 0 0 0 0
    rcases h1 : searchLoopFuel encode target false polls 10000 0 10000
        none none 0 0 with e1 | r1 <;>
      rcases h2 : searchLoopFuel encode target true polls' 10000 0 10000
          none none 0 0 with e2 | r2 <;>
      rw [h1, h2] at hv <;>
      simp only [searchView, Except.error.injEq, Except.ok.injEq,
        Prod.mk.injEq] at hv
    · rw [compress_file_loop_error encode input target fmt false na od polls
          p e1 hfmt h1,
        compress_file_loop_error encode input target fmt true na od polls'
          p e2 hfmt h2, hv]
    · exact Except.noConfusion hv
    · exact Except.noConfusion hv
    · obtain ⟨hlo, hhi, hsv, hat⟩ := hv
      rw [compress_file_loop_ok encode input target fmt false na od polls
          p r1 hfmt h1,
        compress_file_loop_ok encode input target fmt true na od polls'
          p r2 hfmt h2]
      dsimp only [compressView]
      rw [hsv, hat]

/-- C8.  On every run of `compress_file` with a supported format that
returns normally, the returned result is the deterministic output path
`{stem}_compressed.{format}` in the output directory, and the size it
reports is the byte size measured for the last encoding attempt
actually performed — nothing re-encodes or re-measures after the loop
exits. -/
theorem final_artifact_path_and_size (encode : Int → EncoderOutcome)
    (input : String) (target : Nat) (fmt : String) (sb na : Bool)
    (od : Option String) (polls : Nat → Nat) (p : CodecProfile)
    (r : CompressResult)
    (hfmt : codec_map fmt = some p)
    (hok : compress_file encode input target fmt sb na od polls = .ok r) :
    r.output = some (output_path input od fmt) ∧
    r.lastSize = (r.attempts.getLast?).map Attempt.size := by
  rcases hl : searchLoopFuel encode target sb polls 10000 0 10000
      none none 0 0 with e | r'
  · rw [compress_file_loop_error encode input target fmt sb na od polls
        p e hfmt hl] at hok
    exact Except.noConfusion hok
  · rw [compress_file_loop_ok encode input target fmt sb na od polls
        p r' hfmt hl] at hok
    injection hok with h
    subst h
    refine ⟨rfl, ?_⟩
    dsimp only
    rw [searchLoopFuel_sizeVar encode target sb polls 10000 0 10000
      none none 0 0 r' hl]
    cases r'.attempts.getLast? <;> rfl

/-- Result of the concrete reference run of `compress_file` used by
the C8 witness. -/
def c8run : CompressResult :=
  match compress_file encId "videos/clip.mp4" 5000 "mp4" false false
      none pollsZero with
  | .ok r => r
  | .error _ => ⟨none, none, [], []⟩

/-- Witness for C8: in the concrete reference run the returned path is
`videos/clip_compressed.mp4` and the reported size is the last
attempt's measured size. -/
theorem final_artifact_path_and_size_witness :
    codec_map "mp4" = some ⟨"libx264", "aac", ["-preset", "ultrafast"]⟩ ∧
    compress_file encId "videos/clip.mp4" 5000 "mp4" false false none
      pollsZero = .ok c8run ∧
    (c8run.output = some (output_path "videos/clip.mp4" none "mp4") ∧
      c8run.lastSize = (c8run.attempts.getLast?).map Attempt.size) :=
  ⟨rfl, rfl,
    final_artifact_path_and_size encId "videos/clip.mp4" 5000 "mp4" false
      false none pollsZero ⟨"libx264", "aac", ["-preset", "ultrafast"]⟩
      c8run rfl rfl⟩

/-- Result of the concrete run of `compress_file` with the exit-1
encoder, used by the C4 counterexample. -/
def c4run : CompressResult :=
  match compress_file encExitOne "clip.mp4" 5000 "mp4" true false
      none pollsZero with
  | .ok r => r
  | .error _ => ⟨none, none, [], []⟩

/-- Counterexample to C4 as stated: with an encoder whose every
invocation exits with status 1 (while writing an artifact, as ffmpeg
does when it fails after creating the output file), the search raises
nothing at all — it runs 13 attempts to completion and returns a
result, because the code never inspects the exit status.  In
particular the attempt at the first midpoint 5000 exited non-zero and
no `EncoderFailure` was raised and the search was not aborted. -/
theorem nonzero_exit_no_failure_cex :
    compress_file encExitOne "clip.mp4" 5000 "mp4" true false none
      pollsZero = .ok c4run ∧
    c4run.attempts.length = 13 ∧
    (encExitOne (pyMid 0 10000)).exitCode = 1 ∧
    (encExitOne (pyMid 0 10000)).exitCode ≠ 0 :=
  ⟨rfl, rfl, rfl, by decide⟩

/-- C4 (amended).  When an encoding attempt's external process cannot
be started, the underlying `FileNotFoundError`/`OSError` propagates
out of `compress_file` immediately: the whole search is aborted at the
first such attempt, the same bitrate is not retried, and no partial
result is returned (the outcome is the bare exception).  A process
that merely exits with a non-zero status, however, raises nothing: the
exit status is never inspected and the search continues (see the
counterexample). -/
theorem encoder_start_failure_aborts (encode : Int → EncoderOutcome)
    (input : String) (target : Nat) (fmt : String) (sb na : Bool)
    (od : Option String) (polls : Nat → Nat) (p : CodecProfile)
    (hfmt : codec_map fmt = some p)
    (hstart : (encode (pyMid 0 10000)).started = false) :
    compress_file encode input target fmt sb na od polls =
      .error .spawnFailure := by
  have h := searchLoopFuel_succ_noStart encode target sb polls 9999 0 10000
    none none 0 0 (by decide) hstart
  norm_num at h
  exact compress_file_loop_error encode input target fmt sb na od polls
    p .spawnFailure hfmt h

/-- Witness for C4 (amended): the unstartable encoder aborts the
search at the first attempt. -/
theorem encoder_start_failure_aborts_witness :
    codec_map "mp4" = some ⟨"libx264", "aac", ["-preset", "ultrafast"]⟩ ∧
    (encNoStart (pyMid 0 10000)).started = false ∧
    compress_file encNoStart "clip.mp4" 100 "mp4" false false none
      pollsZero = .error .spawnFailure :=
  ⟨rfl, rfl,
    encoder_start_failure_aborts encNoStart "clip.mp4" 100 "mp4" false false
      none pollsZero ⟨"libx264", "aac", ["-preset", "ultrafast"]⟩ rfl rfl⟩

/-- Counterexample to C5 as stated: requesting the unsupported format
`xyz` does not fail with an error — `compress_file` returns normally
(Python `None`, here `output = none`) after printing a message; the
attempt list is empty, so zero encoder processes were spawned. -/
theorem unsupported_format_no_error_cex :
    compress_file encId "clip.mp4" 1000 "xyz" false false none pollsZero =
      .ok ⟨none, none, [],
        ["Compressing files, please wait...",
          "Unsupported output format: xyz"]⟩ := rfl

/-- C5 (amended).  For every requested output format that is not a key
of the codec map, `compress_file` returns immediately: it prints the
unsupported-format message, returns `None` to its caller without
raising any error, and spawns zero encoding processes (the attempt
trace is empty). -/
theorem unsupported_format_returns_none (encode : Int → EncoderOutcome)
    (input : String) (target : Nat) (fmt : String) (sb na : Bool)
    (od : Option String) (polls : Nat → Nat)
    (hfmt : codec_map fmt = none) :
    compress_file encode input target fmt sb na od polls =
      .ok ⟨none, none, [],
        ["Compressing files, please wait...",
          "Unsupported output format: " ++ fmt]⟩ :=
  compress_file_unsupported encode input target fmt sb na od polls hfmt

/-- Witness for C5 (amended) at the unsupported format `gif`. -/
theorem unsupported_format_returns_none_witness :
    codec_map "gif" = none ∧
    compress_file encId "clip.mp4" 1000 "gif" false false none pollsZero =
      .ok ⟨none, none, [],
        ["Compressing files, please wait...",
          "Unsupported output format: gif"]⟩ :=
  ⟨rfl, unsupported_format_returns_none encId "clip.mp4" 1000 "gif" false
    false none pollsZero rfl⟩

/-- Unfolding of `shrinkx_main` when `compress_file` returns: the run
exits 0, prints the saved-as line, and removes the input file exactly
when the input path differs from the returned value. -/
theorem shrinkx_main_ok (encode : Int → EncoderOutcome) (input : String)
    (target : Nat) (fmt : String) (sb na : Bool) (od : Option String)
    (polls : Nat → Nat) (r : CompressResult)
    (hok : compress_file encode input target fmt sb na od polls = .ok r) :
    shrinkx_main encode input (.parsed target fmt sb na od) polls =
      ⟨0, r.console ++ ["Compressed file saved as " ++ pyShowOpt r.output],
        decide (r.output ≠ some input)⟩ := by
  simp only [shrinkx_main]
  rw [hok]

/-- C10.  After every run of the shrinkx CLI in which `compress_file`
returns, the CLI deletes the input file from disk whenever the input
path differs from the returned output value — the comparison is
`input_file != output_file` on whatever `compress_file` returned,
including `None`; the deletion does not depend on whether the input
was downloaded or a pre-existing local file the user supplied. -/
theorem input_file_deleted (encode : Int → EncoderOutcome) (input : String)
    (target : Nat) (fmt : String) (sb na : Bool) (od : Option String)
    (polls : Nat → Nat) (r : CompressResult)
    (hok : compress_file encode input target fmt sb na od polls = .ok r)
    (hne : r.output ≠ some input) :
    (shrinkx_main encode input (.parsed target fmt sb na od) polls).removedInput
      = true := by
  rw [shrinkx_main_ok encode input target fmt sb na od polls r hok]
  exact decide_eq_true hne

/-- Witness for C10 at the sharpest instance: the format is
unsupported, so compression is skipped (`compress_file` returns
`None`), and the CLI still deletes the user-supplied local input
file. -/
theorem input_file_deleted_witness :
    compress_file encId "clip.mp4" 1000 "xyz" false false none pollsZero =
      .ok ⟨none, none, [],
        ["Compressing files, please wait...",
          "Unsupported output format: xyz"]⟩ ∧
    (⟨none, none, [],
        ["Compressing files, please wait...",
          "Unsupported output format: xyz"]⟩ : CompressResult).output ≠
      some "clip.mp4" ∧
    (shrinkx_main encId "clip.mp4" (.parsed 1000 "xyz" false false none)
        pollsZero).removedInput = true :=
  ⟨rfl, by decide,
    input_file_deleted encId "clip.mp4" 1000 "xyz" false false none pollsZero
      ⟨none, none, [],
        ["Compressing files, please wait...",
          "Unsupported output format: xyz"]⟩ rfl (by decide)⟩

/-- Multiplying a value below `2 ^ 53` by a unit of at most `1024 ^ 3`
stays exact through the float path: `int(float(s) * m)` equals the
exact product. -/
theorem pyFloatTimes_small (n m : Nat) (hn : n < 2 ^ 53)
    (hm : m ≤ 1024 ^ 3) : pyFloatTimes n m = some (n * m) := by
  have h1 : roundFloat53 n = n := by rw [roundFloat53, if_pos hn]
  have e53 : (2 : Nat) ^ 53 < 2 ^ 1024 :=
    Nat.pow_lt_pow_right (by norm_num) (by norm_num)
  have h2 : n * m < 2 ^ 1024 :=
    calc n * m ≤ 2 ^ 53 * 1024 ^ 3 := Nat.mul_le_mul (le_of_lt hn) hm
      _ = 2 ^ 83 := by norm_num [← pow_add]
      _ < 2 ^ 1024 := Nat.pow_lt_pow_right (by norm_num) (by norm_num)
  rw [pyFloatTimes, pyIntOfFloatDigits, h1, if_pos (lt_trans hn e53)]
  simp [h2]

/-- A string cannot end in two different two-character suffixes that
differ in their first character. -/
theorem endsWith2_ne (cs : List Char) (a b a' : Char)
    (h : endsWith2 cs a b = true) (hne : a' ≠ a) :
    endsWith2 cs a' b = false := by
  rw [endsWith2] at h ⊢
  revert h
  generalize cs.reverse = l
  rcases l with _ | ⟨x, _ | ⟨y, t⟩⟩ <;> intro h <;> simp_all
  exact fun hh => hne hh.symm

/-- Counterexample to C6 as stated: `parse_size` of shrinkx.py goes
through `float`, and binary64 floats carry 53 significant bits, so the
digit string for `2 ^ 53 + 1` followed by `kb` parses to
`2 ^ 53 * 1024` — not to `(2 ^ 53 + 1) * 1024` as the claim requires
for every digit string. -/
theorem parse_size_float_cex :
    parse_size "9007199254740993kb" = some 9223372036854775808 ∧
    (9223372036854775808 : Nat) ≠ 9007199254740993 * 1024 :=
  ⟨by decide, by norm_num⟩

/-- C6 (amended).  For the shrinkx `parse_size`, a string of digits
followed by `kb`/`mb`/`gb` (case-insensitively, via lowering) yields
the number times 1024, 1048576 resp. 1073741824 **provided the number
is below `2 ^ 53`** (the float conversion is exact in that range; the
counterexample shows the restriction is necessary), and a bare digit
string of any size yields exactly that number of bytes; the earlier
shrinkr `parse_size`, which uses pure integer arithmetic, satisfies
the unit equations for digit strings of any size; in particular
`"400kb"` yields 409600, `"5mb"` yields 5242880, `"2gb"` yields
2147483648 and `"1000"` yields 1000. -/
theorem parse_size_units :
    (∀ s n, endsWith2 (pyLower s).data 'k' 'b' = true →
      pyIntOfString (dropLast2 (pyLower s)) = some n → n < 2 ^ 53 →
      parse_size s = some (n * 1024)) ∧
    (∀ s n, endsWith2 (pyLower s).data 'm' 'b' = true →
      pyIntOfString (dropLast2 (pyLower s)) = some n → n < 2 ^ 53 →
      parse_size s = some (n * (1024 * 1024))) ∧
    (∀ s n, endsWith2 (pyLower s).data 'g' 'b' = true →
      pyIntOfString (dropLast2 (pyLower s)) = some n → n < 2 ^ 53 →
      parse_size s = some (n * (1024 * 1024 * 1024))) ∧
    (∀ s n, endsWith2 (pyLower s).data 'k' 'b' = false →
      endsWith2 (pyLower s).data 'm' 'b' = false →
      endsWith2 (pyLower s).data 'g' 'b' = false →
      pyIntOfString (pyLower s) = some n →
      parse_size s = some n) ∧
    (∀ s n, endsWith2 (pyLower s).data 'k' 'b' = true →
      pyIntOfString (dropLast2 (pyLower s)) = some n →
      parse_size_shrinkr s = some (n * 1024)) ∧
    (∀ s n, endsWith2 (pyLower s).data 'm' 'b' = true →
      pyIntOfString (dropLast2 (pyLower s)) = some n →
      parse_size_shrinkr s = some (n * (1024 * 1024))) ∧
    (∀ s n, endsWith2 (pyLower s).data 'g' 'b' = true →
      pyIntOfString (dropLast2 (pyLower s)) = some n →
      parse_size_shrinkr s = some (n * (1024 * 1024 * 1024))) ∧
    parse_size "400kb" = some 409600 ∧
    parse_size "5mb" = some 5242880 ∧
    parse_size "2gb" = some 2147483648 ∧
    parse_size "1000" = some 1000 := by
  refine ⟨?_, ?_, ?_, ?_, ?_, ?_, ?_, rfl, rfl, rfl, rfl⟩
  · intro s n h1 h2 h3
    simp only [parse_size]
    rw [if_pos h1, h2]
    exact pyFloatTimes_small n 1024 h3 (by norm_num)
  · intro s n h1 h2 h3
    simp only [parse_size]
    rw [if_neg (by simp [endsWith2_ne (pyLower s).data 'm' 'b' 'k' h1
        (by decide)]), if_pos h1, h2]
    exact pyFloatTimes_small n (1024 * 1024) h3 (by norm_num)
  · intro s n h1 h2 h3
    simp only [parse_size]
    rw [if_neg (by simp [endsWith2_ne (pyLower s).data 'g' 'b' 'k' h1
        (by decide)]),
      if_neg (by simp [endsWith2_ne (pyLower s).data 'g' 'b' 'm' h1
        (by decide)]), if_pos h1, h2]
    exact pyFloatTimes_small n (1024 * 1024 * 1024) h3 (by norm_num)
  · intro s n hk hm hg h2
    simp only [parse_size]
    rw [if_neg (by simp [hk]), if_neg (by simp [hm]), if_neg (by simp [hg])]
    exact h2
  · intro s n h1 h2
    simp only [parse_size_shrinkr]
    rw [if_pos h1, h2]
    rfl
  · intro s n h1 h2
    simp only [parse_size_shrinkr]
    rw [if_neg (by simp [endsWith2_ne (pyLower s).data 'm' 'b' 'k' h1
        (by decide)]), if_pos h1, h2]
    rfl
  · intro s n h1 h2
    simp only [parse_size_shrinkr]
    rw [if_neg (by simp [endsWith2_ne (pyLower s).data 'g' 'b' 'k' h1
        (by decide)]),
      if_neg (by simp [endsWith2_ne (pyLower s).data 'g' 'b' 'm' h1
        (by decide)]), if_pos h1, h2]
    rfl

/-- Witness for C6 (amended), instantiating the kb clause at
`"400kb"`. -/
theorem parse_size_units_witness :
    endsWith2 (pyLower "400kb").data 'k' 'b' = true ∧
    pyIntOfString (dropLast2 (pyLower "400kb")) = some 400 ∧
    400 < 2 ^ 53 ∧
    parse_size "400kb" = some (400 * 1024) :=
  ⟨rfl, rfl, by norm_num,
    parse_size_units.1 "400kb" 400 rfl rfl (by norm_num)⟩

/-- The exception plumbing of the `__main__` block of shrinkr.py
(lines 88-92): a `SystemExit` raised by `parse_args` — argparse's
standard parser exits with status 2 on malformed arguments — is
caught, the help text is printed, and the program re-exits via
`sys.exit(0)`; when parsing succeeds the program runs `main(args)` and
the interpreter likewise exits 0. -/
def shrinkr_handle_parse : Except Int Unit → Int
  | .error _code => 0
  | .ok _ => 0

/-- C9 is violated by the code: on a malformed invocation shrinkx
prints the error message and the usage text, but the `SystemExit(2)`
raised by `CustomArgumentParser.error` is caught by `main`'s
`except SystemExit` handler, which exits with status **0**; shrinkr's
`__main__` block likewise converts argparse's exit status 2 into
`sys.exit(0)`.  The claimed non-zero exit status is exactly what the
parser's own `sys.exit(2)` intended, making the swallowed status a
slip rather than a design choice. -/
theorem malformed_args_exit_zero :
    (shrinkx_main encId "clip.mp4"
        (.malformed "unrecognized arguments: --bad") pollsZero).exitCode = 0 ∧
    usage_line ∈ (shrinkx_main encId "clip.mp4"
        (.malformed "unrecognized arguments: --bad") pollsZero).console ∧
    argparse_error_exit = 2 ∧
    shrinkr_handle_parse (.error 2) = 0 :=
  ⟨rfl, by decide, rfl, rfl⟩

end Shrinkx
